import Mathlib

/-!
Verification of the credit-log / fixed-width report application
(`scriptCreditLog.js`) against its natural-language specification.

The JavaScript source is shallowly embedded: JS strings become `String`,
JS numbers become the `JNum` sum of an exact rational and the two
infinities (`NaN` is the `none` of an `Option JNum`), nullable values
become `Option`, and the dynamically-typed values flowing through row
fields become the `JSVal` sum type.  IEEE-754 double behaviour is
modelled where it changes the program's visible outputs: the numeral
parsers (`Number`, `parseFloat`) recognise the signed `Infinity` literal
and clamp overflowing and underflowing decimal numerals to `±Infinity`
and `0` at the exact double rounding boundaries, and the arithmetic the
program performs on parsed values (`-`, `/`, `*`) propagates infinities
and `NaN` and clamps finite results the same way.  Within the finite
range, values are kept as exact rationals (the numbers appearing in the
verified properties are small decimals, where doubles and rationals
agree on the comparisons and divisions performed).  String primitives
(`trim`, `substring`, `split`, `indexOf`, `toUpperCase`) are modelled
character-wise on the ASCII text the reports consist of; hexadecimal
`Number` literals do not occur in report data and are outside the model.
-/

/-- A non-`NaN` JavaScript number: a finite value, kept as an exact
rational, or one of the two infinities (`inf false` is `+Infinity`,
`inf true` is `-Infinity`).  `NaN` is represented as the `none` of an
`Option JNum` wherever it can arise. -/
inductive JNum where
  | fin : Rat → JNum
  | inf : Bool → JNum
  deriving DecidableEq

/-- A dynamically typed JavaScript value, as far as the embedded code
needs to distinguish them: `null`/`undefined`, a string, a non-`NaN`
number, or the floating-point `NaN`. -/
inductive JSVal where
  | null : JSVal
  | str : String → JSVal
  | num : JNum → JSVal
  | nan : JSVal
  deriving DecidableEq

/-- JS truthiness of a non-`NaN` number: everything but `0` (and `-0`,
which the rationals identify with `0`) is truthy. -/
def jnumTruthy : JNum → Bool
  | JNum.fin q => q ≠ 0
  | JNum.inf _ => true

/-- `n > 0` on non-`NaN` numbers: the exit condition of the rate-prompt
loop (`!(isNaN(rate) || rate <= 0)`).  `+Infinity > 0` holds. -/
def jnumPos : JNum → Bool
  | JNum.fin q => 0 < q
  | JNum.inf neg => !neg

/-- JS truthiness for the values of `JSVal`. -/
def jsTruthy : JSVal → Bool
  | JSVal.null => false
  | JSVal.str s => s ≠ ""
  | JSVal.num n => jnumTruthy n
  | JSVal.nan => false

/-- JS `String.prototype.trim`: strip whitespace from both ends. -/
def jsTrim (s : String) : String :=
  String.mk (((s.toList.dropWhile Char.isWhitespace).reverse.dropWhile Char.isWhitespace).reverse)

/-- Worker for `jsSplitLines`: the first argument is the unread input, the
second the current line accumulated in reverse.  A `'\r'` immediately
before a `'\n'` is consumed with it; a lone `'\r'` stays in its line. -/
def jsSplitLinesGo : List Char → List Char → List String
  | [], acc => [String.mk acc.reverse]
  | '\n' :: rest, acc =>
    (match acc with
     | '\r' :: t => String.mk t.reverse
     | _ => String.mk acc.reverse) :: jsSplitLinesGo rest []
  | c :: rest, acc => jsSplitLinesGo rest (c :: acc)

/-- `content.split(/\r?\n/)`. -/
def jsSplitLines (content : String) : List String :=
  jsSplitLinesGo content.toList []

/-- `s.slice(0, n)` / one-argument `substring` prefix: first `n` characters. -/
def jsTake (s : String) (n : Nat) : String :=
  String.mk (s.toList.take n)

/-- `String.prototype.substring(start, end)`: indices are clamped to the
string length and swapped when `start > end`. -/
def jsSubstring (s : String) (a b : Nat) : String :=
  let n := s.length
  let lo := min (min a b) n
  let hi := min (max a b) n
  String.mk ((s.toList.drop lo).take (hi - lo))

/-- One-argument `String.prototype.substring(start)`. -/
def jsSubstringFrom (s : String) (a : Nat) : String :=
  String.mk (s.toList.drop a)

/-- `String.prototype.toUpperCase` on ASCII text. -/
def jsToUpper (s : String) : String :=
  String.mk (s.toList.map Char.toUpper)

/-- First index of `pat` in a character list (JS `String.prototype.indexOf`,
with `none` standing for the JS result `-1`). -/
def listIndexOf (pat : List Char) : List Char → Option Nat
  | [] => if pat = [] then some 0 else none
  | c :: rest =>
    if pat.isPrefixOf (c :: rest) then some 0
    else (listIndexOf pat rest).map (· + 1)

/-- `s.indexOf(pat)`, `none` for `-1`. -/
def jsIndexOf (s pat : String) : Option Nat :=
  listIndexOf pat.toList s.toList

/-- Substring containment (JS `String.prototype.includes`). -/
def jsIncludes (s pat : String) : Bool :=
  (jsIndexOf s pat).isSome

/-- Decimal digit run: splits the longest prefix of digits off a character
list. -/
def spanDigits (cs : List Char) : List Char × List Char :=
  cs.span (·.isDigit)

/-- Value of a digit run. -/
def digitsVal (ds : List Char) : Nat :=
  ds.foldl (fun a c => a * 10 + (c.toNat - 48)) 0

/-- Optional leading sign; returns `(isNegative, rest)`. -/
def parseSign : List Char → Bool × List Char
  | '-' :: r => (true, r)
  | '+' :: r => (false, r)
  | cs => (false, cs)

/-- Unsigned decimal mantissa `digits [. digits]` (at least one digit
overall), returning its value and the unconsumed remainder. -/
def parseMantissa (cs : List Char) : Option (Rat × List Char) :=
  let p := spanDigits cs
  match p.2 with
  | '.' :: r2 =>
    let pf := spanDigits r2
    if p.1.isEmpty ∧ pf.1.isEmpty then none
    else some ((digitsVal p.1 : Rat) + (digitsVal pf.1 : Rat) / ((10 : Rat) ^ pf.1.length), pf.2)
  | _ => if p.1.isEmpty then none else some ((digitsVal p.1 : Rat), p.2)

/-- Exponent part `e|E [sign] digits`, returning the signed exponent and
the unconsumed remainder; `none` when the characters do not start a
well-formed exponent. -/
def parseExpPart (cs : List Char) : Option (Int × List Char) :=
  match cs with
  | c :: r =>
    if c = 'e' ∨ c = 'E' then
      let sr := parseSign r
      let pe := spanDigits sr.2
      if pe.1.isEmpty then none
      else some ((if sr.1 then -(digitsVal pe.1 : Int) else (digitsVal pe.1 : Int)), pe.2)
    else none
  | [] => none

/-- Apply a signed power-of-ten exponent. -/
def applyExp (q : Rat) (e : Int) : Rat :=
  if 0 ≤ e then q * (10 : Rat) ^ e.toNat else q / (10 : Rat) ^ (-e).toNat

/-- Attach an optional leading minus sign. -/
def signedRat (neg : Bool) (q : Rat) : Rat :=
  if neg then -q else q

/-- Smallest magnitude at which IEEE-754 double rounding (to nearest,
ties to even) overflows to infinity: the midpoint `2^1024 - 2^970`
between the largest finite double `2^1024 - 2^971` and `2^1024`; the
midpoint itself rounds up to the even candidate `2^1024`, i.e. to
infinity. -/
def doubleOverflow : Rat :=
  2 ^ 1024 - 2 ^ 970

/-- Largest magnitude at which double rounding underflows to zero: the
midpoint `2^(-1075)` between `0` and the smallest subnormal `2^(-1074)`;
the midpoint ties to the even candidate `0`. -/
def doubleTiny : Rat :=
  1 / 2 ^ 1075

/-- Round an exact rational into the double range: magnitudes at or past
the overflow boundary become `±Infinity`, magnitudes at or below the
underflow boundary become `0`, and everything in between is kept exact
(the documented idealization of in-range double rounding). -/
def fitDouble (q : Rat) : JNum :=
  if doubleOverflow ≤ q then JNum.inf false
  else if q ≤ -doubleOverflow then JNum.inf true
  else if |q| ≤ doubleTiny then JNum.fin 0
  else JNum.fin q

/-- The character sequence of the ECMAScript `Infinity` literal. -/
def infinityChars : List Char :=
  ['I', 'n', 'f', 'i', 'n', 'i', 't', 'y']

/-- JS `Number(s)` on report text: the whole string must be a signed
`Infinity` literal or a signed decimal numeral with optional exponent
(the two are disjoint, so the literal is checked when no numeral
parses); the empty string converts to `0`; decimal values are clamped
into the double range; anything else is `NaN` (`none`). -/
def jsNumberOpt (s : String) : Option JNum :=
  match s.toList with
  | [] => some (JNum.fin 0)
  | cs =>
    let sg := parseSign cs
    match parseMantissa sg.2 with
    | none => if sg.2 = infinityChars then some (JNum.inf sg.1) else none
    | some (m, rest) =>
      match rest with
      | [] => some (fitDouble (signedRat sg.1 m))
      | _ =>
        match parseExpPart rest with
        | some (e, []) => some (fitDouble (signedRat sg.1 (applyExp m e)))
        | _ => none

/-- JS `parseFloat(s)`: leading whitespace is skipped, then the longest
signed `Infinity`-literal or decimal-numeral prefix (with optional
exponent) is taken — the two are disjoint, so the literal is checked
when no numeral parses; trailing garbage is ignored; decimal values are
clamped into the double range; `none` is `NaN`. -/
def jsParseFloat (s : String) : Option JNum :=
  let cs := s.toList.dropWhile (·.isWhitespace)
  let sg := parseSign cs
  match parseMantissa sg.2 with
  | none => if infinityChars.isPrefixOf sg.2 then some (JNum.inf sg.1) else none
  | some (m, rest) =>
    match parseExpPart rest with
    | some (e, _) => some (fitDouble (signedRat sg.1 (applyExp m e)))
    | none => some (fitDouble (signedRat sg.1 m))

/-- JS `Math.round`: round half toward positive infinity. -/
def jsRound (q : Rat) : Int :=
  Int.floor (q + 1 / 2)

/-- Remove every comma (the source's `replace(/,/g, '')`). -/
def stripCommas (s : String) : String :=
  String.mk (s.toList.filter (· ≠ ','))

/-- Two-digit zero-padded numeral for the fractional part of `toFixed(2)`. -/
def pad2 (k : Nat) : String :=
  if k < 10 then "0" ++ toString k else toString k

/-- JS `x.toFixed(2)` on exact rationals, following the ECMAScript
algorithm: the sign is split off, then the nearest 2-decimal value is
chosen with ties going to the larger numerator. -/
def formatFixed2 (q : Rat) : String :=
  (if q < 0 then "-" else "") ++
    toString ((Int.floor (|q| * 100 + 1 / 2)).toNat / 100) ++ "." ++
    pad2 ((Int.floor (|q| * 100 + 1 / 2)).toNat % 100)

/-- Double subtraction with `NaN` propagation (`none` is `NaN`):
`∞ - ∞` of equal signs is `NaN`, an infinity dominates a finite operand,
finite results are clamped into the double range. -/
def jnumSub : Option JNum → Option JNum → Option JNum
  | some (JNum.fin a), some (JNum.fin b) => some (fitDouble (a - b))
  | some (JNum.inf s), some (JNum.fin _) => some (JNum.inf s)
  | some (JNum.fin _), some (JNum.inf s) => some (JNum.inf (!s))
  | some (JNum.inf s), some (JNum.inf t) => if s = t then none else some (JNum.inf s)
  | _, _ => none

/-- Double division with `NaN` propagation: `0/0` and `∞/∞` are `NaN`,
a finite value over `±0` is a signed infinity (the rationals identify
`-0` with `0`, so the zero is treated as `+0`; every call site guards a
zero divisor anyway), a finite value over an infinity is `0`, finite
results are clamped into the double range. -/
def jnumDiv : Option JNum → Option JNum → Option JNum
  | some (JNum.fin a), some (JNum.fin b) =>
    if b = 0 then (if a = 0 then none else some (JNum.inf (a < 0)))
    else some (fitDouble (a / b))
  | some (JNum.inf s), some (JNum.fin b) => some (JNum.inf (xor s (b < 0)))
  | some (JNum.fin _), some (JNum.inf _) => some (JNum.fin 0)
  | some (JNum.inf _), some (JNum.inf _) => none
  | _, _ => none

/-- Double multiplication with `NaN` propagation: `∞ · 0` is `NaN`,
signs multiply through infinities, finite results are clamped into the
double range. -/
def jnumMul : Option JNum → Option JNum → Option JNum
  | some (JNum.fin a), some (JNum.fin b) => some (fitDouble (a * b))
  | some (JNum.inf s), some (JNum.fin b) =>
    if b = 0 then none else some (JNum.inf (xor s (b < 0)))
  | some (JNum.fin a), some (JNum.inf s) =>
    if a = 0 then none else some (JNum.inf (xor s (a < 0)))
  | some (JNum.inf s), some (JNum.inf t) => some (JNum.inf (xor s t))
  | _, _ => none

/-- `x.toFixed(2)` on a non-`NaN` number: `(±Infinity).toFixed(2)` is
`"±Infinity"`. -/
def formatFixed2J : JNum → String
  | JNum.fin q => formatFixed2 q
  | JNum.inf false => "Infinity"
  | JNum.inf true => "-Infinity"

/-- `parseNumericValue` (src/scriptCreditLog.js:2218): trim, reject the
all-whitespace string, strip commas, convert with `Number`, and map `NaN`
to `null` (`Number.isNaN(Infinity)` is false, so infinities pass
through).  The source's `typeof value !== 'string'` guard is rendered by
the `String` type of the argument; at every call site the argument is a
string. -/
def parseNumericValue (value : String) : Option JNum :=
  let trimmed := jsTrim value
  if trimmed = "" then none
  else jsNumberOpt (stripCommas trimmed)

/-- `computePercentageDiff` (src/scriptCreditLog.js:2245): `"N/A"` when
either operand fails to parse (is `null`) or is zero (infinities pass
the `=== 0` guard), otherwise `Math.round` of the percentage difference
followed by `%` — rendered per the value class, since `Math.round` maps
a finite value to its rounded integer, `±Infinity` to itself and `NaN`
to `NaN`, and the template prints those as `"Infinity"`, `"-Infinity"`
and `"NaN"`. -/
def computePercentageDiff (currentValue previousValue : String) : String :=
  match parseNumericValue currentValue, parseNumericValue previousValue with
  | some currentNumber, some previousNumber =>
    if currentNumber = JNum.fin 0 ∨ previousNumber = JNum.fin 0 then "N/A"
    else
      match jnumMul (jnumDiv (jnumSub (some currentNumber) (some previousNumber))
          (some previousNumber)) (some (JNum.fin 100)) with
      | some (JNum.fin percentValue) => toString (jsRound percentValue) ++ "%"
      | some (JNum.inf false) => "Infinity%"
      | some (JNum.inf true) => "-Infinity%"
      | none => "NaN%"
  | _, _ => "N/A"

/-- A `{start, end}` character-offset pair (the source's bracket objects;
`end` is spelled `endPos` because `end` is a Lean keyword, and the name
`JsBracket` avoids the Mathlib `Bracket` class). -/
structure JsBracket where
  start : Nat
  endPos : Nat
  deriving DecidableEq

/-- The column map returned by `findColumnSeparators`
(src/scriptCreditLog.js:1814): three brackets plus the named data-column
start offsets (an insertion-ordered association list, like the JS object). -/
structure Separators where
  groupBracket : JsBracket
  codeBracket : JsBracket
  nameBracket : JsBracket
  dataColumnIndices : List (String × Nat)
  deriving DecidableEq

/-- Stable insertion used by `jsStableSort`: `x` is placed before the
first element `y` with `le x y`; on ties the earlier-input element stays
first, as ECMAScript requires of `Array.prototype.sort`. -/
def jsOrderedInsert (le : α → α → Bool) (x : α) : List α → List α
  | [] => [x]
  | y :: ys => if le x y then x :: y :: ys else y :: jsOrderedInsert le x ys

/-- A stable sort modelling `Array.prototype.sort(comparefn)`, with
`le a b` standing for `comparefn(a, b) <= 0` (a comparator result of
`NaN` is treated as `+0` by the ECMAScript `SortCompare`).  ECMAScript
fixes the output only for consistent comparators; this model fixes one
concrete stable algorithm. -/
def jsStableSort (le : α → α → Bool) : List α → List α
  | [] => []
  | x :: xs => jsOrderedInsert le x (jsStableSort le xs)

/-- One parsed data row of a fixed-width report (`generateTableHTML`'s
`<tr>` content, src/scriptCreditLog.js:2003, without the HTML). -/
structure ParsedRow where
  group : String
  code : String
  name : String
  cells : List String
  deriving DecidableEq

/-- Row extraction of `generateTableHTML` (src/scriptCreditLog.js:1991):
a line yields a data row exactly when its group slice trims to a single
character and its code slice trims to non-empty; the data cells are the
15-character slices at the column offsets, visited in ascending offset
order (the source sorts the column names by offset and looks each offset
up again; mapping over the offset-sorted entries is the same thing). -/
def rowOfLine (seps : Separators) (line : String) : Option ParsedRow :=
  let groupValue := jsTrim (jsSubstring line seps.groupBracket.start seps.groupBracket.endPos)
  let codeValue := jsTrim (jsSubstring line seps.codeBracket.start seps.codeBracket.endPos)
  if groupValue.length = 1 ∧ codeValue ≠ "" then
    some { group := groupValue
           code := codeValue
           name := jsTrim (jsSubstring line seps.nameBracket.start seps.nameBracket.endPos)
           cells := (jsStableSort (fun p q => p.2 ≤ q.2) seps.dataColumnIndices).map fun p =>
             jsTrim (jsSubstring line p.2 (p.2 + 15)) }
  else none

/-- All data rows of a report (the `lines.forEach` of `generateTableHTML`). -/
def parseReportRows (content : String) (seps : Separators) : List ParsedRow :=
  (jsSplitLines content).filterMap (rowOfLine seps)

/-- `generateTableHTML` guarded by its `!separators` check: with no column
map the row parser is not invoked and no rows are produced. -/
def parseReportRowsOpt (content : String) (seps : Option Separators) : List ParsedRow :=
  match seps with
  | none => []
  | some s => parseReportRows content s

/-- Column map fixture used for the concrete row-filter examples. -/
def sepsEx : Separators :=
  { groupBracket := { start := 0, endPos := 3 }
    codeBracket := { start := 3, endPos := 9 }
    nameBracket := { start := 9, endPos := 30 }
    dataColumnIndices := [] }

/-- The `thirdLine` of `validateDataUpload`: `lines[2].toUpperCase()`. -/
def thirdLineOf (content : String) : String :=
  jsToUpper ((jsSplitLines content).getD 2 "")

/-- `validateDataUpload` (src/scriptCreditLog.js:1766): the fixed-width
classifier.  `some 0` is a Volume report, `some 1` a Commission report,
`none` the undetermined (rejected) case. -/
def validateDataUpload (content : String) : Option Nat :=
  if 3 ≤ (jsSplitLines content).length then
    if jsIncludes (thirdLineOf content) "VOLUME" then some 0
    else if jsIncludes (thirdLineOf content) "COMMISSION" then some 1
    else none
  else none

/-- Character class of the anchor-code regex `[A-Z0-9]`. -/
def isCodeChar (c : Char) : Bool :=
  ('A' ≤ c ∧ c ≤ 'Z') ∨ c.isDigit

/-- Index of the leftmost run of four consecutive `[A-Z0-9]` characters
(the regex match `/[A-Z0-9]{4}/`), `none` when there is no match. -/
def findRun4 : List Char → Option Nat
  | [] => none
  | c1 :: rest =>
    match rest with
    | c2 :: c3 :: c4 :: _ =>
      if isCodeChar c1 ∧ isCodeChar c2 ∧ isCodeChar c3 ∧ isCodeChar c4 then some 0
      else (findRun4 rest).map (· + 1)
    | _ => none

/-- `dataLine.match(/[A-Z0-9]{4}/)` reduced to the match index
(`codeMatch.index`), `none` when the regex does not match. -/
def findCodeIndex (line : String) : Option Nat :=
  findRun4 line.toList

/-- Association-list read modelling JS `Map.prototype.get` / object
indexing. -/
def lookupAssoc : List (String × α) → String → Option α
  | [], _ => none
  | p :: rest, k => if p.1 = k then some p.2 else lookupAssoc rest k

/-- Association-list write modelling JS `Map.prototype.set` / object
property assignment: an existing key keeps its position and gets the new
value (last write wins), a new key is appended. -/
def setAssoc : List (String × α) → String → α → List (String × α)
  | [], k, v => [(k, v)]
  | p :: rest, k, v => if p.1 = k then (k, v) :: rest else p :: setAssoc rest k v

/-- JS `lines[i]` for a possibly out-of-range (or negative) index:
`none` is `undefined`. -/
def lineAtInt (lines : List String) (i : Int) : Option String :=
  if 0 ≤ i ∧ i.toNat < lines.length then some (lines.getD i.toNat "") else none

/-- `undefined`-to-falsy coalescing used for `lines[rowIndex]`. -/
def lineAtIntD (lines : List String) (i : Int) : String :=
  match lineAtInt lines i with
  | some s => s
  | none => ""

/-- The primary Commission column titles searched in the header line. -/
def commissionTerms : List String :=
  ["CURR MO", "LY SAME MO", "CURR YTD", "YTD LAST YR", "TOTAL LAST YR", "AVG"]

/-- The primary Volume column titles searched in the header line. -/
def volumeTerms : List String :=
  ["CURR MO", "LY SAME MO", "CURR YTD", "YTD LAST YR", "TOTAL LAST YR"]

/-- The secondary column titles searched in the header line and the line
immediately after it. -/
def secondaryTerms : List String :=
  ["MTD % DIFF", "YTD % DIFF", "YTD DIFF"]

/-- The `dataColumnTerms.forEach` loops of `findColumnSeparators`: record
the starting offset of each title found in `line`. -/
def addTermIndices (line : String) (terms : List String) (acc : List (String × Nat)) :
    List (String × Nat) :=
  terms.foldl
    (fun a term =>
      match jsIndexOf line term with
      | some i => setAssoc a term i
      | none => a)
    acc

/-- The secondary-terms loop of `findColumnSeparators`: rows
`headerRow - 1` and `headerRow` (0-based) are scanned, skipping a missing
or empty line (`if (!headerText) return`). -/
def addSecondaryIndices (lines : List String) (headerRow : Int)
    (acc0 : List (String × Nat)) : List (String × Nat) :=
  [headerRow - 1, headerRow].foldl
    (fun acc rowIndex =>
      let headerText := lineAtIntD lines rowIndex
      if headerText = "" then acc
      else addTermIndices headerText secondaryTerms acc)
    acc0

/-- End of the name bracket: the first run of four consecutive spaces
after the code, or the end of the data line when there is none. -/
def nameEndOf (dataLine : String) (codeIndex : Nat) : Nat :=
  match jsIndexOf (jsSubstringFrom dataLine (codeIndex + 4)) "    " with
  | some k => codeIndex + 4 + k
  | none => dataLine.length

/-- `findColumnSeparators` (src/scriptCreditLog.js:1814): on the data line
4 rows below the (1-based) header row, locate the first 4-character
`[A-Z0-9]` code; the group bracket is everything before it, the code
bracket the 4 matched characters, the name bracket runs from after the
code to the first run of four spaces (or end of line); the data-column
offsets come from the column titles found in the header line (and, for
the secondary titles, the line after it).  Returns `none` when the file
type is unknown, the data line does not exist, or no code is found. -/
def findColumnSeparators (content : String) (headerRow : Int) (fileType : Nat) :
    Option Separators :=
  if fileType = 1 ∨ fileType = 0 then
    let lines := jsSplitLines content
    let dataLineIndex : Int := headerRow + 4 - 1
    if headerRow ≠ -1 ∧ dataLineIndex < (lines.length : Int) then
      let dataLine := lineAtIntD lines dataLineIndex
      match findCodeIndex dataLine with
      | none => none
      | some codeIndex =>
        let nameStartIndex := codeIndex + 4
        let headerLine := lineAtIntD lines (headerRow - 1)
        let primary := if fileType = 1 then commissionTerms else volumeTerms
        some
          { groupBracket := { start := 0, endPos := codeIndex }
            codeBracket := { start := codeIndex, endPos := codeIndex + 4 }
            nameBracket := { start := nameStartIndex, endPos := nameEndOf dataLine codeIndex }
            dataColumnIndices :=
              addSecondaryIndices lines headerRow (addTermIndices headerLine primary []) }
    else none
  else none

/-- The state touched by currency conversion: the process-scoped
`exchangeRatesCache` and the stream of interactive answers the user will
give to successive `prompt` calls (`none` is Cancel).  Modelling the
interaction as a finite response list makes the blocking `prompt` loop a
pure function; exhausting the list behaves like a cancel. -/
structure ConvState where
  cache : List (String × JNum)
  promptInputs : List (Option String)
  deriving DecidableEq

/-- `promptForExchangeRate` (src/scriptCreditLog.js:1038): ask until the
input parses (`parseFloat`) to a value greater than zero — anything
`NaN` or `<= 0` re-prompts, while `+Infinity` (e.g. the input
`"Infinity"` or an overflowing numeral) is accepted — or the user
cancels (`null`), which returns `none`.  Returns the obtained rate and
the unconsumed response stream.  The source's `currencyCode` argument
only appears in the prompt message text and is therefore dropped from
the model. -/
def promptForExchangeRate : List (Option String) → Option JNum × List (Option String)
  | [] => (none, [])
  | none :: rest => (none, rest)
  | some input :: rest =>
    match jsParseFloat input with
    | some rate => if jnumPos rate then (some rate, rest) else promptForExchangeRate rest
    | none => promptForExchangeRate rest

/-- `parseFloat(amount)` on a dynamically typed amount: a number passes
through unchanged, a string is parsed, `null`/`NaN` coerce to `NaN`. -/
def parseFloatVal : JSVal → Option JNum
  | JSVal.num n => some n
  | JSVal.str s => jsParseFloat s
  | JSVal.null => none
  | JSVal.nan => none

/-- A division result returned as a JS value: `NaN` (`none`) becomes
the `NaN` number value. -/
def jnumValToJSVal : Option JNum → JSVal
  | some n => JSVal.num n
  | none => JSVal.nan

/-- The `if (!rate)` prompt block of `convertToUSD`
(src/scriptCreditLog.js:1287): prompt for a rate; on success cache it and
divide (the `(No Rate)` arm keeps the source's unreachable second falsy
check); on cancel return the `(Rate needed)` annotated string and leave
the cache untouched. -/
def convertPrompt (numericAmount : JNum) (upperCaseCurrency : String) (st : ConvState) :
    JSVal × ConvState :=
  match promptForExchangeRate st.promptInputs with
  | (some rate, rest) =>
    if jnumTruthy rate then
      (jnumValToJSVal (jnumDiv (some numericAmount) (some rate)),
       { cache := setAssoc st.cache upperCaseCurrency rate, promptInputs := rest })
    else
      (JSVal.str (formatFixed2J numericAmount ++ " " ++ upperCaseCurrency ++ " (No Rate)"),
       { cache := setAssoc st.cache upperCaseCurrency rate, promptInputs := rest })
  | (none, rest) =>
    (JSVal.str (formatFixed2J numericAmount ++ " " ++ upperCaseCurrency ++ " (Rate needed)"),
     { cache := st.cache, promptInputs := rest })

/-- `convertToUSD` (src/scriptCreditLog.js:1270): `' '` for a missing
amount, `'N/A'` for a missing currency, `'Invalid Amount'` when
`parseFloat` fails; a USD amount passes through as a number; otherwise
the cached rate is used (`if (!rate)` — a falsy cached value falls
through to the prompt block) and the amount is divided by the rate,
which can yield `0`, an infinity or `NaN` when an operand is infinite. -/
def convertToUSD (amount : JSVal) (currency : Option String) (st : ConvState) :
    JSVal × ConvState :=
  if amount = JSVal.null ∨ amount = JSVal.str "" then (JSVal.str " ", st)
  else
    match currency with
    | none => (JSVal.str "N/A", st)
    | some c =>
      if c = "" then (JSVal.str "N/A", st)
      else
        match parseFloatVal amount with
        | none => (JSVal.str "Invalid Amount", st)
        | some numericAmount =>
          if jsToUpper c = "USD" then (JSVal.num numericAmount, st)
          else
            match lookupAssoc st.cache (jsToUpper c) with
            | some rate =>
              if jnumTruthy rate then
                (jnumValToJSVal (jnumDiv (some numericAmount) (some rate)), st)
              else convertPrompt numericAmount (jsToUpper c) st
            | none => convertPrompt numericAmount (jsToUpper c) st

/-- Invariant of the exchange-rate cache: every stored rate is positive
in the extended sense — a positive finite number or `+Infinity`. -/
def cacheOK (cache : List (String × JNum)) : Prop :=
  ∀ p ∈ cache, jnumPos p.2 = true

/-- The `MsgInfo` header fields the combiner reads (XML text fields are
`Option String`, `getElementNumber` fields `Option Rat`; `none` is the
JS `null` of a missing/empty element). -/
structure MsgInfoRec where
  SenderCode : Option String
  SequenceNr : Option Rat
  DateTime : Option String
  deriving DecidableEq

/-- The `Seller` fields the combiner reads. -/
structure SellerRec where
  SellerNr : Option String
  SellerName : Option String
  deriving DecidableEq

/-- The `Buyer` fields the combiner reads. -/
structure BuyerRec where
  BuyerName : Option String
  Country : Option String
  DirectContact : Option Rat
  deriving DecidableEq

/-- The export-factor (`EF`) fields the combiner reads.  `FactorCode` is
typed `String` because the source calls `.substring(0, 2)` on it
unconditionally whenever `ef` is present. -/
structure EFRec where
  FactorCode : String
  FactorName : Option String
  deriving DecidableEq

/-- The `SellerDetails` field the combiner reads from a matched MSG01. -/
structure SellerDetailsRec where
  BusinessProduct : Option String
  deriving DecidableEq

/-- A decoded MSG01 (SellerAgreement) document, reduced to the fields the
repository key and the combiner use. -/
structure MSG01Rec where
  msgInfo : MsgInfoRec
  seller : SellerRec
  sellerDetails : Option SellerDetailsRec
  deriving DecidableEq

/-- `PrelCreditAssessDetails` of MSG02. -/
structure PrelCreditAssessDetailsRec where
  AmtCreditAssessReq : Option Rat
  Currency : Option String
  NetPmtTerms : Option Rat
  deriving DecidableEq

/-- `CreditCoverDetails` of MSG05. -/
structure CreditCoverDetailsRec where
  NewCreditCoverAmt : Option Rat
  Currency : Option String
  NetPmtTerms : Option Rat
  deriving DecidableEq

/-- `NewCreditCoverDetails` of MSG07. -/
structure NewCreditCoverDetailsRec where
  NewCreditCoverAmt : Option Rat
  LongCreditPeriodDays : Option Rat
  deriving DecidableEq

/-- `CurrentCreditCoverDetails` of MSG07. -/
structure CurrentCreditCoverDetailsRec where
  Currency : Option String
  deriving DecidableEq

/-- The three transactional message kinds. -/
inductive TransKind where
  | msg02 : TransKind
  | msg05 : TransKind
  | msg07 : TransKind
  deriving DecidableEq

/-- `msg.type` of a transactional message. -/
def TransKind.typeName : TransKind → String
  | TransKind.msg02 => "MSG02"
  | TransKind.msg05 => "MSG05"
  | TransKind.msg07 => "MSG07"

/-- A decoded transactional message (MSG02/MSG05/MSG07), reduced to the
fields `generateCombinedDisplayData` reads; kind-specific detail sections
are `Option`s and only the section matching `kind` is consulted. -/
structure TransMsg where
  kind : TransKind
  msgInfo : MsgInfoRec
  requestDate : Option String
  seller : SellerRec
  buyer : Option BuyerRec
  ef : Option EFRec
  msgText : String
  prelCreditAssessDetails : Option PrelCreditAssessDetailsRec
  creditCoverDetails : Option CreditCoverDetailsRec
  newCreditCoverDetails : Option NewCreditCoverDetailsRec
  currentCreditCoverDetails : Option CurrentCreditCoverDetailsRec
  deriving DecidableEq

/-- JS template-literal stringification of a nullable string
(`${null}` prints `"null"`). -/
def jsTemplate : Option String → String
  | some s => s
  | none => "null"

/-- The composite join key `` `${SenderCode}_${SellerNr}` ``
(src/scriptCreditLog.js:983 and 1072). -/
def msg01Key (senderCode sellerNr : Option String) : String :=
  jsTemplate senderCode ++ "_" ++ jsTemplate sellerNr

/-- The join key derived from an MSG01's own header and seller number. -/
def msg01KeyOf (m : MSG01Rec) : String :=
  msg01Key m.msgInfo.SenderCode m.seller.SellerNr

/-- `allMsg01s.set(key, instance)` (src/scriptCreditLog.js:984): register
one decoded MSG01 under its derived key, overwriting any previous record
with the same key. -/
def registerMsg01 (store : List (String × MSG01Rec)) (m : MSG01Rec) :
    List (String × MSG01Rec) :=
  setAssoc store (msg01KeyOf m) m

/-- Register a batch of decoded MSG01 documents in arrival order into an
initially empty store (the per-run reset of `allMsg01s`). -/
def registerAll (docs : List MSG01Rec) : List (String × MSG01Rec) :=
  List.foldl registerMsg01 [] docs

/-- At most one record per key: the stored keys are pairwise distinct. -/
def keysNodup (store : List (String × MSG01Rec)) : Prop :=
  (store.map Prod.fst).Nodup

/-- A concrete decoded MSG01 used by the C8 witness. -/
def m01Ex : MSG01Rec :=
  { msgInfo := { SenderCode := some "F1", SequenceNr := none, DateTime := none }
    seller := { SellerNr := some "S9", SellerName := some "SellerCo" }
    sellerDetails := some { BusinessProduct := some "Widgets" } }

/-- A number-or-null field rendered as a JS value (decoded XML numeric
fields are finite under the documented idealization). -/
def optNum : Option Rat → JSVal
  | some q => JSVal.num (JNum.fin q)
  | none => JSVal.null

/-- `s.slice(-1)`: the last character of a non-empty string. -/
def jsSliceLast (s : String) : String :=
  String.mk (s.toList.drop (s.length - 1))

/-- The external lookup collaborators consumed by the combiner (country
resolver, credit-manager and account-executive routing tables); per the
spec these are outside the core and injected as pure functions. -/
structure Resolvers where
  regionOf : String → String
  getCreditManager : String → JSVal → Option String → String
  getAccountExecutive : String → Option String → String

/-- One display row of the combined audit log, with the source's field
set and defaults (src/scriptCreditLog.js:1076).  Fields that can hold a
string-or-null XML value are `Option String`; dynamically numeric fields
are `JSVal`. -/
structure DisplayRow where
  sequenceNr : JSVal
  requestDate : String
  dateReceived : String
  reminder : String
  newAcctNameAddressChange : String
  cancellation : String
  buyerName : Option String
  buyerCountry : String
  sellerName : Option String
  sellerCountry : String
  partnerName : Option String
  partnerCountry : String
  messageType : String
  amountReq : JSVal
  currency : Option String
  term : JSVal
  contactAllowed : String
  msgFunctionCode : String
  amtApproved : String
  msg3ExpirationDate : String
  insurance : String
  responseDate : String
  ofacDate : String
  rate : String
  incomingComments : String
  creditComments : String
  aeComments : String
  daysToRespond : String
  creditManager : String
  aeCso : String
  industryProduct : Option String
  clientCode : String
  amountReqUSD : JSVal
  deriving DecidableEq

/-- The per-message body of the `generateCombinedDisplayData` loop
(src/scriptCreditLog.js:1069): derive the join key, look up the matching
MSG01, populate the row defaults and the kind-specific amount / currency
/ term / contact fields, infer the partner country from the first two
characters of the export-factor code, convert the amount (threading the
rate-cache / prompt state), and assign manager and executive. -/
def buildRow (rc : Resolvers) (store : List (String × MSG01Rec)) (msg : TransMsg)
    (st : ConvState) : DisplayRow × ConvState :=
  let matchedMsg01 := lookupAssoc store (msg01Key msg.msgInfo.SenderCode msg.seller.SellerNr)
  let amountReq : JSVal :=
    match msg.kind with
    | TransKind.msg02 =>
      match msg.prelCreditAssessDetails with
      | some d => optNum d.AmtCreditAssessReq
      | none => JSVal.str ""
    | TransKind.msg05 =>
      match msg.creditCoverDetails with
      | some d => optNum d.NewCreditCoverAmt
      | none => JSVal.str ""
    | TransKind.msg07 =>
      match msg.newCreditCoverDetails with
      | some d => optNum d.NewCreditCoverAmt
      | none => JSVal.str ""
  let currency : Option String :=
    match msg.kind with
    | TransKind.msg02 =>
      match msg.prelCreditAssessDetails with
      | some d => d.Currency
      | none => some ""
    | TransKind.msg05 =>
      match msg.creditCoverDetails with
      | some d => d.Currency
      | none => some ""
    | TransKind.msg07 =>
      match msg.currentCreditCoverDetails with
      | some d => d.Currency
      | none => some ""
  let term : JSVal :=
    match msg.kind with
    | TransKind.msg02 =>
      match msg.prelCreditAssessDetails with
      | some d => optNum d.NetPmtTerms
      | none => JSVal.str ""
    | TransKind.msg05 =>
      match msg.creditCoverDetails with
      | some d => optNum d.NetPmtTerms
      | none => JSVal.str ""
    | TransKind.msg07 =>
      match msg.newCreditCoverDetails with
      | some d => optNum d.LongCreditPeriodDays
      | none => JSVal.str ""
  let contactAllowed : String :=
    match msg.kind with
    | TransKind.msg07 => "No"
    | _ =>
      match msg.buyer with
      | some b => if b.DirectContact = some 1 then "Yes" else "No"
      | none => "No"
  let exportFactorCodeCharacters : String :=
    match msg.ef with
    | some ef => jsTake ef.FactorCode 2
    | none => ""
  let partnerCountry : String :=
    if exportFactorCodeCharacters ≠ "" then rc.regionOf exportFactorCodeCharacters else ""
  let partnerName : Option String :=
    match msg.ef with
    | some ef => ef.FactorName
    | none => some ""
  let conv := convertToUSD amountReq currency st
  (({ sequenceNr :=
        match msg.msgInfo.SequenceNr with
        | some q => if q ≠ 0 then JSVal.num (JNum.fin q) else JSVal.str ""
        | none => JSVal.str ""
      requestDate := msg.requestDate.getD ""
      dateReceived :=
        match msg.msgInfo.DateTime with
        | some s => if s = "" then "" else jsTake s 10
        | none => ""
      reminder := "No"
      newAcctNameAddressChange := "No"
      cancellation := "No"
      buyerName :=
        match msg.buyer with
        | some b => b.BuyerName
        | none => some ""
      buyerCountry :=
        match msg.buyer with
        | some b => b.Country.getD ""
        | none => ""
      sellerName := msg.seller.SellerName
      sellerCountry := partnerCountry
      partnerName := partnerName
      partnerCountry := partnerCountry
      messageType := jsSliceLast msg.kind.typeName
      amountReq := amountReq
      currency := currency
      term := term
      contactAllowed := contactAllowed
      msgFunctionCode := ""
      amtApproved := ""
      msg3ExpirationDate := ""
      insurance := ""
      responseDate := ""
      ofacDate := ""
      rate := ""
      incomingComments := msg.msgText
      creditComments := ""
      aeComments := ""
      daysToRespond := ""
      creditManager := rc.getCreditManager exportFactorCodeCharacters conv.1 partnerName
      aeCso := rc.getAccountExecutive exportFactorCodeCharacters partnerName
      industryProduct :=
        match matchedMsg01 with
        | some m01 =>
          match m01.sellerDetails with
          | some sd => sd.BusinessProduct
          | none => some ""
        | none => some ""
      clientCode :=
        match msg.ef with
        | some ef => ef.FactorCode
        | none => ""
      amountReqUSD := conv.1 } : DisplayRow),
   conv.2)

/-- The `forEach` over the concatenated transactional messages: build one
row per message in order, threading the conversion state. -/
def combineRows (rc : Resolvers) (store : List (String × MSG01Rec)) :
    List TransMsg → ConvState → List DisplayRow × ConvState
  | [], st => ([], st)
  | msg :: rest, st =>
    let rs := buildRow rc store msg st
    let more := combineRows rc store rest rs.2
    (rs.1 :: more.1, more.2)

/-- Gregorian leap year. -/
def isLeapYear (y : Nat) : Bool :=
  (y % 4 = 0 ∧ y % 100 ≠ 0) ∨ y % 400 = 0

/-- Days in a month. -/
def daysInMonth (y m : Nat) : Nat :=
  if m = 2 then (if isLeapYear y then 29 else 28)
  else if m = 4 ∨ m = 6 ∨ m = 9 ∨ m = 11 then 30 else 31

/-- `new Date(s)` on the `YYYY-MM-DD` strings `dateReceived` holds
(`DateTime.slice(0, 10)`), reduced to what the sort comparator consumes:
`none` for an invalid date and an order-preserving integer code
(`y * 10000 + m * 100 + d`, order-isomorphic to the UTC timestamp on
calendar dates) for a valid one. -/
def jsDateParse (s : String) : Option Int :=
  match s.toList with
  | [y1, y2, y3, y4, '-', m1, m2, '-', d1, d2] =>
    if y1.isDigit ∧ y2.isDigit ∧ y3.isDigit ∧ y4.isDigit ∧
        m1.isDigit ∧ m2.isDigit ∧ d1.isDigit ∧ d2.isDigit then
      if 1 ≤ digitsVal [m1, m2] ∧ digitsVal [m1, m2] ≤ 12 ∧
          1 ≤ digitsVal [d1, d2] ∧
          digitsVal [d1, d2] ≤ daysInMonth (digitsVal [y1, y2, y3, y4]) (digitsVal [m1, m2]) then
        some ((digitsVal [y1, y2, y3, y4] : Int) * 10000 +
          (digitsVal [m1, m2] : Int) * 100 + (digitsVal [d1, d2] : Int))
      else none
    else none
  | _ => none

/-- The comparator value `new Date(a) - new Date(b)`: an invalid date on
either side makes the subtraction `NaN`, which ECMAScript `SortCompare`
treats as `+0` — a tie. -/
def jsDateCompare : Option Int → Option Int → Int
  | some x, some y => x - y
  | _, _ => 0

/-- `comparefn(a, b) <= 0` for the received-date comparator of
src/scriptCreditLog.js:1161. -/
def rowLe (a b : DisplayRow) : Bool :=
  jsDateCompare (jsDateParse a.dateReceived) (jsDateParse b.dateReceived) ≤ 0

/-- The final `combinedData.sort(...)` (src/scriptCreditLog.js:1161). -/
def sortDisplayRows (rows : List DisplayRow) : List DisplayRow :=
  jsStableSort rowLe rows

/-- `generateCombinedDisplayData` (src/scriptCreditLog.js:1065): combine
the three transactional collections in kind order, then sort by received
date. -/
def generateCombinedDisplayData (rc : Resolvers) (store : List (String × MSG01Rec))
    (msg02s msg05s msg07s : List TransMsg) (st : ConvState) :
    List DisplayRow × ConvState :=
  let combined := combineRows rc store (msg02s ++ msg05s ++ msg07s) st
  (sortDisplayRows combined.1, combined.2)

/-- The parsed-date key a row sorts by (`0` for unparsable dates; under
the all-parsable hypothesis of the sortedness statement the default is
never consulted). -/
def dateKey (r : DisplayRow) : Int :=
  (jsDateParse r.dateReceived).getD 0

/-- A display row fixture with a given received date (all other fields at
their defaults), used by the C6 sort statements. -/
def mkTestRow (d : String) : DisplayRow :=
  { sequenceNr := JSVal.str "", requestDate := "", dateReceived := d, reminder := "No",
    newAcctNameAddressChange := "No", cancellation := "No", buyerName := some "",
    buyerCountry := "", sellerName := some "", sellerCountry := "", partnerName := some "",
    partnerCountry := "", messageType := "2", amountReq := JSVal.str "", currency := some "",
    term := JSVal.str "", contactAllowed := "No", msgFunctionCode := "", amtApproved := "",
    msg3ExpirationDate := "", insurance := "", responseDate := "", ofacDate := "", rate := "",
    incomingComments := "", creditComments := "", aeComments := "", daysToRespond := "",
    creditManager := "", aeCso := "", industryProduct := some "", clientCode := "",
    amountReqUSD := JSVal.str " " }

/-- Constant external resolvers for the concrete C7 witness. -/
def rcEx : Resolvers :=
  { regionOf := fun _ => ""
    getCreditManager := fun _ _ _ => ""
    getAccountExecutive := fun _ _ => "" }

/-- A concrete MSG05 transactional message for the C7 witness. -/
def transMsgEx : TransMsg :=
  { kind := TransKind.msg05
    msgInfo := { SenderCode := some "F1", SequenceNr := some 1,
                 DateTime := some "2024-05-06T10:00:00" }
    requestDate := some "2024-05-05"
    seller := { SellerNr := some "S9", SellerName := some "SellerCo" }
    buyer := some { BuyerName := some "BuyerCo", Country := some "US", DirectContact := some 1 }
    ef := some { FactorCode := "USFACT01", FactorName := some "Partner" }
    msgText := ""
    prelCreditAssessDetails := none
    creditCoverDetails := some { NewCreditCoverAmt := some 1000, Currency := some "USD",
                                 NetPmtTerms := some 30 }
    newCreditCoverDetails := none
    currentCreditCoverDetails := none }

/-- Clamping is the identity strictly inside the double range. -/
theorem fitDouble_fin {q : Rat} (h1 : q < doubleOverflow) (h2 : -doubleOverflow < q)
    (h3 : doubleTiny < |q|) : fitDouble q = JNum.fin q := by
  unfold fitDouble
  rw [if_neg (not_le.mpr h1), if_neg (not_le.mpr h2), if_neg (not_le.mpr h3)]

/-- `fitDouble_fin` for a positive value, stated without `|·|`. -/
theorem fitDouble_fin_pos {q : Rat} (h1 : q < doubleOverflow) (h3 : doubleTiny < q) :
    fitDouble q = JNum.fin q := by
  have hq : 0 < q := lt_trans (by norm_num [doubleTiny]) h3
  have hov : (0 : Rat) < doubleOverflow := by norm_num [doubleOverflow]
  refine fitDouble_fin h1 (by linarith) ?_
  rw [abs_of_pos hq]
  exact h3

/-- `fitDouble_fin` for a negative value, stated without `|·|`. -/
theorem fitDouble_fin_neg {q : Rat} (h1 : -doubleOverflow < q) (h3 : q < -doubleTiny) :
    fitDouble q = JNum.fin q := by
  have hq : q < 0 := lt_trans h3 (by norm_num [doubleTiny])
  have hov : (0 : Rat) < doubleOverflow := by norm_num [doubleOverflow]
  refine fitDouble_fin (by linarith) h1 ?_
  rw [abs_of_neg hq]
  simpa using neg_lt_neg h3

/-- Clamping sends magnitudes past the overflow boundary to `+Infinity`. -/
theorem fitDouble_inf_pos {q : Rat} (h : doubleOverflow ≤ q) : fitDouble q = JNum.inf false := by
  unfold fitDouble
  rw [if_pos h]

/-- Zero is its own clamp. -/
theorem fitDouble_zero : fitDouble 0 = JNum.fin 0 := by
  unfold fitDouble
  rw [if_neg (by norm_num [doubleOverflow]), if_neg (by norm_num [doubleOverflow]),
    if_pos (by norm_num [doubleTiny])]

/-- A division result that comes back as a number value was a non-`NaN`
division result. -/
theorem jnumValToJSVal_num {o : Option JNum} {n : JNum}
    (h : jnumValToJSVal o = JSVal.num n) : o = some n := by
  cases o with
  | none => simp [jnumValToJSVal] at h
  | some m =>
    simp only [jnumValToJSVal, JSVal.num.injEq] at h
    rw [h]

/-- A positive number is truthy. -/
theorem jnumTruthy_of_pos {r : JNum} (h : jnumPos r = true) : jnumTruthy r = true := by
  cases r with
  | fin q =>
    simp only [jnumPos, decide_eq_true_eq] at h
    simp only [jnumTruthy, ne_eq, decide_eq_true_eq]
    exact ne_of_gt h
  | inf s => simp [jnumTruthy]

/-- A positive number is not the zero divisor. -/
theorem jnumPos_ne_zero {r : JNum} (h : jnumPos r = true) : r ≠ JNum.fin 0 := by
  intro heq
  rw [heq] at h
  simp [jnumPos] at h

/-- `Number("110")` is the finite value `110`. -/
theorem parseNumericValue_110 : parseNumericValue "110" = some (JNum.fin 110) := by
  have hd : digitsVal ['1', '1', '0'] = 110 := by decide
  have hfit : fitDouble (110 : Rat) = JNum.fin 110 :=
    fitDouble_fin_pos (by norm_num [doubleOverflow]) (by norm_num [doubleTiny])
  simp [parseNumericValue, jsTrim, stripCommas, jsNumberOpt, parseSign, parseMantissa,
    spanDigits, parseExpPart, signedRat, hd, hfit]

/-- `Number("100")` is the finite value `100`. -/
theorem parseNumericValue_100 : parseNumericValue "100" = some (JNum.fin 100) := by
  have hd : digitsVal ['1', '0', '0'] = 100 := by decide
  have hfit : fitDouble (100 : Rat) = JNum.fin 100 :=
    fitDouble_fin_pos (by norm_num [doubleOverflow]) (by norm_num [doubleTiny])
  simp [parseNumericValue, jsTrim, stripCommas, jsNumberOpt, parseSign, parseMantissa,
    spanDigits, parseExpPart, signedRat, hd, hfit]

/-- `Number("2")` is the finite value `2`. -/
theorem parseNumericValue_2 : parseNumericValue "2" = some (JNum.fin 2) := by
  have hd : digitsVal ['2'] = 2 := by decide
  have hfit : fitDouble (2 : Rat) = JNum.fin 2 :=
    fitDouble_fin_pos (by norm_num [doubleOverflow]) (by norm_num [doubleTiny])
  simp [parseNumericValue, jsTrim, stripCommas, jsNumberOpt, parseSign, parseMantissa,
    spanDigits, parseExpPart, signedRat, hd, hfit]

/-- `Number("0")` is the finite value `0`. -/
theorem parseNumericValue_0 : parseNumericValue "0" = some (JNum.fin 0) := by
  have hd : digitsVal ['0'] = 0 := by decide
  simp [parseNumericValue, jsTrim, stripCommas, jsNumberOpt, parseSign, parseMantissa,
    spanDigits, parseExpPart, signedRat, hd, fitDouble_zero]

/-- `Number("1e999")` overflows the double range to `+Infinity`. -/
theorem parseNumericValue_1e999 : parseNumericValue "1e999" = some (JNum.inf false) := by
  have hd1 : digitsVal ['1'] = 1 := by decide
  have hd9 : digitsVal ['9', '9', '9'] = 999 := by decide
  have happ : applyExp (1 : Rat) (999 : Int) = 10 ^ 999 := by
    unfold applyExp
    rw [if_pos (by norm_num), show ((999 : Int)).toNat = (999 : Nat) from rfl, one_mul]
  have hfit : fitDouble ((10 : Rat) ^ 999) = JNum.inf false := by
    refine fitDouble_inf_pos ?_
    norm_num [doubleOverflow]
  simp [parseNumericValue, jsTrim, stripCommas, jsNumberOpt, parseSign, parseMantissa,
    spanDigits, parseExpPart, signedRat, hd1, hd9, happ, hfit]

/-- `Number("Infinity")` is `+Infinity` (the ECMAScript `Infinity`
literal). -/
theorem parseNumericValue_infinity : parseNumericValue "Infinity" = some (JNum.inf false) := by
  decide

/-- The percentage formula on finite, nonzero, non-overflowing operands:
the finite arm of `computePercentageDiff`. -/
theorem computePercentageDiff_fin {cur prev : String} {x y : Rat}
    (hx : parseNumericValue cur = some (JNum.fin x))
    (hy : parseNumericValue prev = some (JNum.fin y))
    (hx0 : x ≠ 0) (hy0 : y ≠ 0)
    (h5 : fitDouble (x - y) = JNum.fin (x - y))
    (h6 : fitDouble ((x - y) / y) = JNum.fin ((x - y) / y))
    (h7 : fitDouble ((x - y) / y * 100) = JNum.fin ((x - y) / y * 100)) :
    computePercentageDiff cur prev = toString (jsRound ((x - y) / y * 100)) ++ "%" := by
  have e1 : jnumSub (some (JNum.fin x)) (some (JNum.fin y)) = some (JNum.fin (x - y)) := by
    simp [jnumSub, h5]
  have e2 : jnumDiv (some (JNum.fin (x - y))) (some (JNum.fin y))
      = some (JNum.fin ((x - y) / y)) := by
    simp [jnumDiv, hy0, h6]
  have e3 : jnumMul (some (JNum.fin ((x - y) / y))) (some (JNum.fin 100))
      = some (JNum.fin ((x - y) / y * 100)) := by
    simp [jnumMul, h7]
  unfold computePercentageDiff
  rw [hx, hy]
  simp [hx0, hy0, e1, e2, e3]

/-- C1 counterexample: `Number` overflow and the `Infinity` literal reach
the percentage formula, so `computePercentageDiff "1e999" "2"` is
`"Infinity%"` (neither operand is null or zero, and the difference is
infinite) and `computePercentageDiff "110" "Infinity"` is `"NaN%"`
(`(110 - Infinity) / Infinity` is `-Infinity / Infinity = NaN`) — the
claim instead demands a finite rounded percent for both, and asserts the
result is never NaN or Infinity. -/
theorem c1_percentage_diff_counterexample :
    computePercentageDiff "1e999" "2" = "Infinity%" ∧
      computePercentageDiff "110" "Infinity" = "NaN%" := by
  constructor
  · have hsub : jnumSub (some (JNum.inf false)) (some (JNum.fin 2)) = some (JNum.inf false) := by
      simp [jnumSub]
    have hdiv : jnumDiv (some (JNum.inf false)) (some (JNum.fin 2)) = some (JNum.inf false) := by
      simp only [jnumDiv, Option.some.injEq, JNum.inf.injEq, Bool.false_xor,
        decide_eq_false_iff_not]
      norm_num
    have hmul : jnumMul (some (JNum.inf false)) (some (JNum.fin 100)) = some (JNum.inf false) := by
      simp only [jnumMul, Option.some.injEq, JNum.inf.injEq, Bool.false_xor]
      rw [if_neg (by norm_num)]
      simp only [Option.some.injEq, JNum.inf.injEq, decide_eq_false_iff_not]
      norm_num
    unfold computePercentageDiff
    rw [parseNumericValue_1e999, parseNumericValue_2]
    simp [hsub, hdiv, hmul]
  · have hsub : jnumSub (some (JNum.fin 110)) (some (JNum.inf false)) = some (JNum.inf true) := by
      simp [jnumSub]
    have hdiv : jnumDiv (some (JNum.inf true)) (some (JNum.inf false)) = none := by
      simp [jnumDiv]
    unfold computePercentageDiff
    rw [parseNumericValue_110, parseNumericValue_infinity]
    simp [hsub, hdiv, jnumMul]

/-- C1 (amended): `computePercentageDiff` returns `"N/A"` whenever either
operand is missing/unparsable (`parseNumericValue` gives `none`) or
zero; when both operands are finite and nonzero and the three
intermediate double results stay in the finite range, it returns the
rounded percentage `round((current - previous) / previous * 100)`
followed by `%` — in particular `computePercentageDiff "110" "100" =
"10%"`; but an infinite operand (the `Infinity` literal or an
overflowing numeral) propagates, so every result is one of `"N/A"`, an
integer percent, `"Infinity%"`, `"-Infinity%"` or `"NaN%"`. -/
theorem c1_percentage_diff :
    (∀ cur prev : String,
      parseNumericValue cur = none ∨ parseNumericValue prev = none ∨
        parseNumericValue cur = some (JNum.fin 0) ∨
        parseNumericValue prev = some (JNum.fin 0) →
      computePercentageDiff cur prev = "N/A")
    ∧ (∀ (cur prev : String) (x y : Rat),
        parseNumericValue cur = some (JNum.fin x) →
        parseNumericValue prev = some (JNum.fin y) →
        x ≠ 0 → y ≠ 0 →
        fitDouble (x - y) = JNum.fin (x - y) →
        fitDouble ((x - y) / y) = JNum.fin ((x - y) / y) →
        fitDouble ((x - y) / y * 100) = JNum.fin ((x - y) / y * 100) →
        computePercentageDiff cur prev = toString (jsRound ((x - y) / y * 100)) ++ "%")
    ∧ computePercentageDiff "110" "100" = "10%"
    ∧ (∀ cur prev : String,
        computePercentageDiff cur prev = "N/A" ∨
          (∃ n : Int, computePercentageDiff cur prev = toString n ++ "%") ∨
          computePercentageDiff cur prev = "Infinity%" ∨
          computePercentageDiff cur prev = "-Infinity%" ∨
          computePercentageDiff cur prev = "NaN%") := by
  refine ⟨?_, ?_, ?_, ?_⟩
  · intro cur prev h
    unfold computePercentageDiff
    rcases h with h | h | h | h <;>
      cases hc : parseNumericValue cur <;> cases hp : parseNumericValue prev <;>
        simp_all
  · intro cur prev x y hx hy hx0 hy0 h5 h6 h7
    exact computePercentageDiff_fin hx hy hx0 hy0 h5 h6 h7
  · have h5 : fitDouble ((110 : Rat) - 100) = JNum.fin ((110 : Rat) - 100) := by
      rw [show (110 : Rat) - 100 = 10 by norm_num]
      exact fitDouble_fin_pos (by norm_num [doubleOverflow]) (by norm_num [doubleTiny])
    have h6 : fitDouble (((110 : Rat) - 100) / 100) = JNum.fin (((110 : Rat) - 100) / 100) := by
      rw [show ((110 : Rat) - 100) / 100 = 1 / 10 by norm_num]
      exact fitDouble_fin_pos (by norm_num [doubleOverflow]) (by norm_num [doubleTiny])
    have h7 : fitDouble (((110 : Rat) - 100) / 100 * 100)
        = JNum.fin (((110 : Rat) - 100) / 100 * 100) := by
      rw [show ((110 : Rat) - 100) / 100 * 100 = 10 by norm_num]
      exact fitDouble_fin_pos (by norm_num [doubleOverflow]) (by norm_num [doubleTiny])
    rw [computePercentageDiff_fin parseNumericValue_110 parseNumericValue_100
      (by norm_num) (by norm_num) h5 h6 h7]
    rw [show ((110 : Rat) - 100) / 100 * 100 = 10 by norm_num]
    rw [show jsRound (10 : Rat) = 10 by unfold jsRound; norm_num]
    decide
  · intro cur prev
    unfold computePercentageDiff
    cases hc : parseNumericValue cur with
    | none => simp
    | some cn =>
      cases hp : parseNumericValue prev with
      | none => simp
      | some pn =>
        by_cases h0 : cn = JNum.fin 0 ∨ pn = JNum.fin 0
        · simp [h0]
        · cases hv : jnumMul (jnumDiv (jnumSub (some cn) (some pn)) (some pn))
              (some (JNum.fin 100)) with
          | none => simp [h0, hv]
          | some v =>
            cases v with
            | fin q =>
              refine Or.inr (Or.inl ⟨jsRound q, ?_⟩)
              simp [h0, hv]
            | inf s =>
              cases s with
              | false => simp [h0, hv]
              | true => simp [h0, hv]

/-- Witness for C1 at concrete inputs: a zero operand yields `"N/A"` and
`110` against `100` yields `"10%"`. -/
theorem c1_percentage_diff_witness :
    computePercentageDiff "0" "5" = "N/A" ∧ computePercentageDiff "110" "100" = "10%" :=
  ⟨c1_percentage_diff.1 "0" "5" (Or.inr (Or.inr (Or.inl parseNumericValue_0))),
   c1_percentage_diff.2.2.1⟩

/-- C2: a line is treated as a data row iff its group-bracket slice trims
to exactly one character and its code-bracket slice trims to a non-empty
string; a line whose group slice trims to `"CC"` is excluded, and one
whose group slice trims to `"C"` with code slice trimming to `"1234"` is
included. -/
theorem c2_row_filter :
    (∀ (seps : Separators) (line : String),
      (rowOfLine seps line).isSome = true ↔
        (jsTrim (jsSubstring line seps.groupBracket.start seps.groupBracket.endPos)).length = 1 ∧
          jsTrim (jsSubstring line seps.codeBracket.start seps.codeBracket.endPos) ≠ "")
    ∧ (∀ (content : String) (seps : Separators),
        parseReportRows content seps = (jsSplitLines content).filterMap (rowOfLine seps))
    ∧ jsTrim (jsSubstring "CC 1234   ACME" sepsEx.groupBracket.start sepsEx.groupBracket.endPos)
        = "CC"
    ∧ rowOfLine sepsEx "CC 1234   ACME" = none
    ∧ jsTrim (jsSubstring "C  1234   ACME" sepsEx.groupBracket.start sepsEx.groupBracket.endPos)
        = "C"
    ∧ jsTrim (jsSubstring "C  1234   ACME" sepsEx.codeBracket.start sepsEx.codeBracket.endPos)
        = "1234"
    ∧ (rowOfLine sepsEx "C  1234   ACME").isSome = true := by
  refine ⟨?_, fun _ _ => rfl, by decide, by decide, by decide, by decide, by decide⟩
  intro seps line
  unfold rowOfLine
  by_cases h :
      (jsTrim (jsSubstring line seps.groupBracket.start seps.groupBracket.endPos)).length = 1 ∧
        jsTrim (jsSubstring line seps.codeBracket.start seps.codeBracket.endPos) ≠ "" <;>
    simp [h]

/-- Witness for C2: the filter equivalence applied at the concrete
included line. -/
theorem c2_row_filter_witness :
    (rowOfLine sepsEx "C  1234   ACME").isSome = true :=
  (c2_row_filter.1 sepsEx "C  1234   ACME").mpr (by decide)

/-- C4 counterexample: the classifier uppercases the third line before
testing containment, so a third line `"volume"` — which contains neither
the literal token `"VOLUME"` nor `"COMMISSION"` — still classifies as
Volume, where the claim as stated demands Unknown. -/
theorem c4_classifier_counterexample :
    validateDataUpload "A\nB\nvolume" = some 0 ∧
      jsIncludes "volume" "VOLUME" = false ∧
      jsIncludes "volume" "COMMISSION" = false := by
  refine ⟨by decide, by decide, by decide⟩

/-- C4 (amended): the classifier reads the third line (0-indexed line 2)
and tests it case-insensitively (the line is uppercased first): if the
uppercased line contains `"VOLUME"` the text is Volume, else if it
contains `"COMMISSION"` it is Commission, and otherwise — including
texts with fewer than three lines — it is Unknown (`none`), a rejection,
not a crash. -/
theorem c4_classifier :
    ∀ content : String,
      (validateDataUpload content = some 0 ↔
        3 ≤ (jsSplitLines content).length ∧
          jsIncludes (thirdLineOf content) "VOLUME" = true)
      ∧ (validateDataUpload content = some 1 ↔
          3 ≤ (jsSplitLines content).length ∧
            jsIncludes (thirdLineOf content) "VOLUME" = false ∧
            jsIncludes (thirdLineOf content) "COMMISSION" = true)
      ∧ (validateDataUpload content = none ↔
          (jsSplitLines content).length < 3 ∨
            (jsIncludes (thirdLineOf content) "VOLUME" = false ∧
              jsIncludes (thirdLineOf content) "COMMISSION" = false)) := by
  intro content
  unfold validateDataUpload
  by_cases h3 : 3 ≤ (jsSplitLines content).length
  · by_cases hv : jsIncludes (thirdLineOf content) "VOLUME" = true
    · simp [h3, hv]
    · by_cases hc : jsIncludes (thirdLineOf content) "COMMISSION" = true
      · simp_all
      · simp_all
  · simp [h3, Nat.lt_of_not_le h3]

/-- Witness for C4: the amended characterization applied at a concrete
Commission text and at a text lacking both tokens. -/
theorem c4_classifier_witness :
    validateDataUpload "A\nB\nCOMMISSION REPORT" = some 1 ∧
      validateDataUpload "A\nB\nHELLO" = none :=
  ⟨((c4_classifier "A\nB\nCOMMISSION REPORT").2.1).mpr (by decide),
   ((c4_classifier "A\nB\nHELLO").2.2).mpr (by decide)⟩

/-- C3: for a located (1-based) header row and a known file type, the
column locator reads the data line exactly 4 lines below the header
(0-based index `headerRow + 3`); when no 4-character `[A-Z0-9]` code
occurs on that line (or the line does not exist) it returns `none` and
the row parser produces nothing; when the code is found at index `i` the
group bracket is `[0, i)`, the code bracket `[i, i + 4)`, and the name
bracket runs from `i + 4` to the first run of four consecutive spaces
after the code, or to the end of the line. -/
theorem c3_column_locator :
    (∀ (content : String) (headerRow : Int) (fileType : Nat),
      1 ≤ headerRow → (fileType = 0 ∨ fileType = 1) →
      (((jsSplitLines content).length : Int) ≤ headerRow + 3 →
        findColumnSeparators content headerRow fileType = none)
      ∧ (headerRow + 3 < ((jsSplitLines content).length : Int) →
          (findCodeIndex (lineAtIntD (jsSplitLines content) (headerRow + 3)) = none →
            findColumnSeparators content headerRow fileType = none)
          ∧ ∀ i, findCodeIndex (lineAtIntD (jsSplitLines content) (headerRow + 3)) = some i →
              ∃ seps, findColumnSeparators content headerRow fileType = some seps ∧
                seps.groupBracket = { start := 0, endPos := i } ∧
                seps.codeBracket = { start := i, endPos := i + 4 } ∧
                seps.nameBracket =
                  { start := i + 4,
                    endPos := nameEndOf (lineAtIntD (jsSplitLines content) (headerRow + 3)) i }))
    ∧ (∀ content : String, parseReportRowsOpt content none = []) := by
  refine ⟨?_, fun _ => rfl⟩
  intro content headerRow fileType h1 hft
  have hne : headerRow ≠ -1 := by omega
  have hidx : headerRow + 4 - 1 = headerRow + 3 := by omega
  have hftif : (fileType = 1 ∨ fileType = 0) := hft.symm
  refine ⟨?_, ?_⟩
  · intro hlen
    unfold findColumnSeparators
    rw [if_pos hftif, hidx, if_neg]
    intro h
    omega
  · intro hlen
    constructor
    · intro hnone
      unfold findColumnSeparators
      rw [if_pos hftif, hidx, if_pos ⟨hne, hlen⟩]
      simp only [hnone]
    · intro i hsome
      unfold findColumnSeparators
      rw [if_pos hftif, hidx, if_pos ⟨hne, hlen⟩]
      simp only [hsome]
      exact ⟨_, rfl, rfl, rfl, rfl⟩

/-- Witness for C3 at a concrete five-line report: the code `"1234"` on
the data line is found at index 3, so the brackets are computed from it. -/
theorem c3_column_locator_witness :
    ∃ seps, findColumnSeparators "H1\nCLNT\nx\ny\nz\nC  1234  ACME CO    99" 2 1 = some seps ∧
      seps.groupBracket = { start := 0, endPos := 3 } ∧
      seps.codeBracket = { start := 3, endPos := 7 } ∧
      seps.nameBracket = { start := 7, endPos := 16 } := by
  have h := (c3_column_locator.1 "H1\nCLNT\nx\ny\nz\nC  1234  ACME CO    99" 2 1
    (by decide) (Or.inr rfl)).2 (by decide)
  obtain ⟨seps, hs, hg, hc, hn⟩ := h.2 3 (by decide)
  refine ⟨seps, hs, hg, hc, ?_⟩
  rw [hn]
  decide

/-- Every rate the prompt loop returns is positive (in the extended
sense: a positive finite value or `+Infinity`). -/
theorem promptForExchangeRate_pos :
    ∀ (inputs : List (Option String)) (r : JNum) (rest : List (Option String)),
      promptForExchangeRate inputs = (some r, rest) → jnumPos r = true := by
  intro inputs
  induction inputs with
  | nil => intro r rest h; simp [promptForExchangeRate] at h
  | cons head tail ih =>
    intro r rest h
    cases head with
    | none => simp [promptForExchangeRate] at h
    | some s =>
      simp only [promptForExchangeRate] at h
      split at h
      next rate hp =>
        split at h
        next h0 =>
          obtain ⟨h1, _⟩ := Prod.mk.inj h
          exact (Option.some.inj h1) ▸ h0
        next h0 => exact ih r rest h
      next hp => exact ih r rest h

/-- `setAssoc` with a positive rate preserves the cache invariant. -/
theorem cacheOK_setAssoc {l : List (String × JNum)} {k : String} {v : JNum}
    (hl : cacheOK l) (hv : jnumPos v = true) : cacheOK (setAssoc l k v) := by
  induction l with
  | nil => intro p hp; simp [setAssoc] at hp; simp [hp, hv]
  | cons q rest ih =>
    intro p hp
    have hq := hl q (by simp)
    have hrest : cacheOK rest := fun x hx => hl x (by simp [hx])
    simp only [setAssoc] at hp
    by_cases hk : q.1 = k
    · rw [if_pos hk] at hp
      rcases List.mem_cons.mp hp with h | h
      · simp [h, hv]
      · exact hl p (by simp [h])
    · rw [if_neg hk] at hp
      rcases List.mem_cons.mp hp with h | h
      · simpa [h] using hq
      · exact ih hrest p h

/-- A successful cache lookup comes from a stored entry. -/
theorem lookupAssoc_mem {l : List (String × α)} {k : String} {v : α}
    (h : lookupAssoc l k = some v) : (k, v) ∈ l := by
  induction l with
  | nil => simp [lookupAssoc] at h
  | cons p rest ih =>
    simp only [lookupAssoc] at h
    by_cases hk : p.1 = k
    · rw [if_pos hk] at h
      have : p = (k, v) := by
        cases p
        simp only [Option.some.injEq] at h
        simp_all
      simp [this]
    · rw [if_neg hk] at h
      exact List.mem_cons_of_mem _ (ih h)

/-- The prompt block preserves the cache invariant. -/
theorem convertPrompt_cacheOK {a : JNum} {u : String} {st : ConvState}
    (hok : cacheOK st.cache) : cacheOK ((convertPrompt a u st).2).cache := by
  unfold convertPrompt
  cases hpr : promptForExchangeRate st.promptInputs with
  | mk res rest =>
    cases res with
    | none => simpa [hpr] using hok
    | some rate =>
      have hr : jnumPos rate = true := promptForExchangeRate_pos st.promptInputs rate rest hpr
      by_cases h0 : jnumTruthy rate = true
      · simpa [hpr, h0] using cacheOK_setAssoc hok hr
      · simpa [hpr, h0] using cacheOK_setAssoc hok hr

/-- A numeric result of the prompt block is a non-`NaN` division of the
amount by a positive prompted rate. -/
theorem convertPrompt_num {a : JNum} {u : String} {st : ConvState} {n : JNum}
    (h : (convertPrompt a u st).1 = JSVal.num n) :
    ∃ r, jnumPos r = true ∧ jnumDiv (some a) (some r) = some n := by
  unfold convertPrompt at h
  cases hpr : promptForExchangeRate st.promptInputs with
  | mk res rest =>
    cases res with
    | none => simp [hpr] at h
    | some rate =>
      have hr : jnumPos rate = true := promptForExchangeRate_pos st.promptInputs rate rest hpr
      have h0 : jnumTruthy rate = true := jnumTruthy_of_pos hr
      simp only [hpr, h0, if_true, ite_true] at h
      exact ⟨rate, hr, jnumValToJSVal_num h⟩

/-- `convertToUSD` preserves the cache invariant in every branch. -/
theorem convertToUSD_cacheOK (amount : JSVal) (currency : Option String) (st : ConvState)
    (hok : cacheOK st.cache) : cacheOK ((convertToUSD amount currency st).2).cache := by
  unfold convertToUSD
  split
  · exact hok
  · split
    · exact hok
    · split
      · exact hok
      · split
        · exact hok
        · split
          · exact hok
          · split
            · split
              · exact hok
              · exact convertPrompt_cacheOK hok
            · exact convertPrompt_cacheOK hok

/-- Under the cache invariant, every numeric result of `convertToUSD` is
either the parsed amount itself (the USD branch) or a non-`NaN` division
of the parsed amount by a positive — hence non-zero — rate. -/
theorem convertToUSD_num (amount : JSVal) (currency : Option String) (st : ConvState) (n : JNum)
    (hok : cacheOK st.cache) (h : (convertToUSD amount currency st).1 = JSVal.num n) :
    ∃ a, parseFloatVal amount = some a ∧
      (n = a ∨ ∃ r, jnumPos r = true ∧ jnumDiv (some a) (some r) = some n) := by
  unfold convertToUSD at h
  split at h
  · simp at h
  · split at h
    · simp at h
    · split at h
      · simp at h
      · split at h
        · simp at h
        · next a hpf =>
          split at h
          · exact ⟨a, hpf, Or.inl (JSVal.num.inj h).symm⟩
          · split at h
            · next rate hl =>
              split at h
              · next h0 =>
                refine ⟨a, hpf, Or.inr ⟨rate, ?_, jnumValToJSVal_num h⟩⟩
                simpa using hok _ (lookupAssoc_mem hl)
              · exact ⟨a, hpf, Or.inr (convertPrompt_num h)⟩
            · exact ⟨a, hpf, Or.inr (convertPrompt_num h)⟩

/-- C5: converting a numeric amount already in the reference currency
`"USD"` returns the amount unchanged as a number (and leaves the state
alone); for any other currency with a cached positive finite rate `r`
the result is the double quotient `amount / r` as a number (`fitDouble`
is the identity whenever the quotient stays in the double range, as in
the witness). -/
theorem c5_currency_conversion :
    (∀ (n : JNum) (st : ConvState),
      convertToUSD (JSVal.num n) (some "USD") st = (JSVal.num n, st))
    ∧ (∀ (q : Rat) (c : String) (st : ConvState) (r : Rat),
        c ≠ "" → jsToUpper c ≠ "USD" →
        lookupAssoc st.cache (jsToUpper c) = some (JNum.fin r) → 0 < r →
        convertToUSD (JSVal.num (JNum.fin q)) (some c) st =
          (JSVal.num (fitDouble (q / r)), st)) := by
  constructor
  · intro n st
    have hu : jsToUpper "USD" = "USD" := by decide
    simp [convertToUSD, parseFloatVal, hu]
  · intro q c st r hc hu hl hr
    have hr0 : r ≠ 0 := ne_of_gt hr
    simp [convertToUSD, parseFloatVal, hc, hu, hl, hr0, jnumTruthy, jnumDiv, jnumValToJSVal]

/-- Witness for C5: `7` USD passes through; `5` EUR against a cached rate
of `2` units per USD converts to `5 / 2`. -/
theorem c5_currency_conversion_witness :
    convertToUSD (JSVal.num (JNum.fin 7)) (some "USD") { cache := [], promptInputs := [] } =
      (JSVal.num (JNum.fin 7), { cache := [], promptInputs := [] }) ∧
    convertToUSD (JSVal.num (JNum.fin 5)) (some "EUR")
        { cache := [("EUR", JNum.fin 2)], promptInputs := [] } =
      (JSVal.num (JNum.fin (5 / 2)), { cache := [("EUR", JNum.fin 2)], promptInputs := [] }) := by
  refine ⟨c5_currency_conversion.1 (JNum.fin 7) _, ?_⟩
  rw [c5_currency_conversion.2 5 "EUR" { cache := [("EUR", JNum.fin 2)], promptInputs := [] } 2
    (by decide) (by decide) (by decide) (by norm_num)]
  rw [fitDouble_fin_pos (by norm_num [doubleOverflow]) (by norm_num [doubleTiny])]

/-- C10 counterexample: the prompt accepts the input `"Infinity"`
(`parseFloat` gives `+Infinity`, which is neither `NaN` nor `<= 0`), and
`convertToUSD` then caches `+Infinity` as the rate for the currency — a
stored rate that is not a finite number, with the converted amount
degrading to `0` — against the claim's "positive finite number". -/
theorem c10_rate_counterexample :
    promptForExchangeRate [some "Infinity"] = (some (JNum.inf false), []) ∧
      (convertToUSD (JSVal.num (JNum.fin 5)) (some "EUR")
          { cache := [], promptInputs := [some "Infinity"] }).2.cache
        = [("EUR", JNum.inf false)] ∧
      (convertToUSD (JSVal.num (JNum.fin 5)) (some "EUR")
          { cache := [], promptInputs := [some "Infinity"] }).1
        = JSVal.num (JNum.fin 0) := by
  refine ⟨by decide, by decide, by decide⟩

/-- C10 (amended): every rate the prompt returns — and hence every rate
stored in the exchange-rate cache — is positive in the extended sense, a
positive finite number or `+Infinity` (the loop re-prompts on `NaN` and
non-positive values and caches nothing on cancel); a positive rate is
never the zero divisor, so the conversion never divides by zero; and
under the cache invariant every numeric conversion result is the parsed
amount or a non-`NaN` division of it by a positive rate — which can be
`0` or infinite when a rate or amount is infinite, rather than always a
finite number. -/
theorem c10_rate_invariant :
    (∀ (inputs : List (Option String)) (r : JNum) (rest : List (Option String)),
      promptForExchangeRate inputs = (some r, rest) → jnumPos r = true)
    ∧ (∀ r : JNum, jnumPos r = true → r ≠ JNum.fin 0)
    ∧ (∀ (amount : JSVal) (currency : Option String) (st : ConvState),
        cacheOK st.cache → cacheOK ((convertToUSD amount currency st).2).cache)
    ∧ (∀ (amount : JSVal) (currency : Option String) (st : ConvState) (n : JNum),
        cacheOK st.cache → (convertToUSD amount currency st).1 = JSVal.num n →
        ∃ a, parseFloatVal amount = some a ∧
          (n = a ∨ ∃ r, jnumPos r = true ∧ jnumDiv (some a) (some r) = some n)) :=
  ⟨promptForExchangeRate_pos, fun _ => jnumPos_ne_zero, convertToUSD_cacheOK, convertToUSD_num⟩

/-- Witness for C10: the prompt loop rejects `"-3"` and `"abc"` before
accepting `"2"`, and the returned rate is positive. -/
theorem c10_rate_invariant_witness :
    promptForExchangeRate [some "-3", some "abc", some "2"] = (some (JNum.fin 2), []) ∧
      jnumPos (JNum.fin 2) = true := by
  have h1 : jsParseFloat "-3" = some (JNum.fin (-3)) := by
    have hd : digitsVal ['3'] = 3 := by decide
    have hfit : fitDouble (-3 : Rat) = JNum.fin (-3) :=
      fitDouble_fin_neg (by norm_num [doubleOverflow]) (by norm_num [doubleTiny])
    simp [jsParseFloat, parseSign, parseMantissa, spanDigits, parseExpPart, signedRat, hd, hfit]
  have h2 : jsParseFloat "abc" = none := by decide
  have h3 : jsParseFloat "2" = some (JNum.fin 2) := by
    have hd : digitsVal ['2'] = 2 := by decide
    have hfit : fitDouble (2 : Rat) = JNum.fin 2 :=
      fitDouble_fin_pos (by norm_num [doubleOverflow]) (by norm_num [doubleTiny])
    simp [jsParseFloat, parseSign, parseMantissa, spanDigits, parseExpPart, signedRat, hd, hfit]
  have hneg : jnumPos (JNum.fin (-3)) = false := by
    simp only [jnumPos, decide_eq_false_iff_not]
    norm_num
  have hpos : jnumPos (JNum.fin 2) = true := by
    simp only [jnumPos, decide_eq_true_eq]
    norm_num
  have he : promptForExchangeRate [some "-3", some "abc", some "2"]
      = (some (JNum.fin 2), []) := by
    simp [promptForExchangeRate, h1, h2, h3, hneg, hpos]
  exact ⟨he, c10_rate_invariant.1 [some "-3", some "abc", some "2"] (JNum.fin 2) [] he⟩

/-- Reading back the key just written returns the written value. -/
theorem lookupAssoc_setAssoc_self (l : List (String × α)) (k : String) (v : α) :
    lookupAssoc (setAssoc l k v) k = some v := by
  induction l with
  | nil => simp [setAssoc, lookupAssoc]
  | cons p rest ih =>
    by_cases hk : p.1 = k
    · simp [setAssoc, hk, lookupAssoc]
    · simp [setAssoc, hk, lookupAssoc, ih]

/-- Writing one key leaves every other key's value unchanged. -/
theorem lookupAssoc_setAssoc_ne (l : List (String × α)) (k k' : String) (v : α)
    (h : k' ≠ k) : lookupAssoc (setAssoc l k v) k' = lookupAssoc l k' := by
  induction l with
  | nil => simp [setAssoc, lookupAssoc, Ne.symm h]
  | cons p rest ih =>
    by_cases hk : p.1 = k
    · have hc : ¬(p.1 = k') := by rw [hk]; exact Ne.symm h
      simp only [setAssoc, if_pos hk, lookupAssoc, if_neg (Ne.symm h), if_neg hc]
    · have hs : setAssoc (p :: rest) k v = p :: setAssoc rest k v := by
        simp [setAssoc, hk]
      rw [hs]
      by_cases hk' : p.1 = k'
      · simp only [lookupAssoc, if_pos hk']
      · simp only [lookupAssoc, if_neg hk', ih]

/-- The keys after `setAssoc` are the old keys, possibly with `k` added. -/
theorem mem_keys_setAssoc {l : List (String × α)} {k x : String} {v : α} :
    x ∈ (setAssoc l k v).map Prod.fst → x ∈ l.map Prod.fst ∨ x = k := by
  induction l with
  | nil =>
    intro h
    simp [setAssoc] at h
    exact Or.inr h
  | cons p rest ih =>
    intro h
    by_cases hk : p.1 = k
    · rw [show setAssoc (p :: rest) k v = (k, v) :: rest from by simp [setAssoc, hk]] at h
      simp only [List.map_cons, List.mem_cons] at h
      rcases h with h1 | h1
      · exact Or.inr h1
      · refine Or.inl ?_
        simp only [List.map_cons, List.mem_cons]
        exact Or.inr h1
    · rw [show setAssoc (p :: rest) k v = p :: setAssoc rest k v from by simp [setAssoc, hk]] at h
      simp only [List.map_cons, List.mem_cons] at h
      rcases h with h1 | h1
      · refine Or.inl ?_
        simp only [List.map_cons, List.mem_cons]
        exact Or.inl h1
      · rcases ih h1 with h2 | h2
        · refine Or.inl ?_
          simp only [List.map_cons, List.mem_cons]
          exact Or.inr h2
        · exact Or.inr h2

/-- `setAssoc` preserves key distinctness. -/
theorem keysNodup_setAssoc {l : List (String × α)} {k : String} {v : α}
    (h : (l.map Prod.fst).Nodup) : ((setAssoc l k v).map Prod.fst).Nodup := by
  induction l with
  | nil => simp [setAssoc]
  | cons p rest ih =>
    rw [List.map_cons] at h
    obtain ⟨hp, hrest⟩ := List.nodup_cons.mp h
    by_cases hk : p.1 = k
    · rw [show setAssoc (p :: rest) k v = (k, v) :: rest from by simp [setAssoc, hk],
        List.map_cons]
      refine List.nodup_cons.mpr ⟨?_, hrest⟩
      simpa [hk] using hp
    · rw [show setAssoc (p :: rest) k v = p :: setAssoc rest k v from by simp [setAssoc, hk],
        List.map_cons]
      refine List.nodup_cons.mpr ⟨?_, ih hrest⟩
      intro hmem
      rcases mem_keys_setAssoc hmem with h1 | h1
      · exact hp h1
      · exact hk h1

/-- Registering documents whose keys all differ from `k` does not change
what `k` maps to. -/
theorem lookup_foldl_no_key (docs : List MSG01Rec) (store : List (String × MSG01Rec))
    (k : String) (h : ∀ d ∈ docs, msg01KeyOf d ≠ k) :
    lookupAssoc (List.foldl registerMsg01 store docs) k = lookupAssoc store k := by
  induction docs generalizing store with
  | nil => rfl
  | cons y ys ih =>
    have hy : msg01KeyOf y ≠ k := h y (by simp)
    rw [List.foldl_cons, ih _ (fun d hd => h d (by simp [hd]))]
    exact lookupAssoc_setAssoc_ne store (msg01KeyOf y) k y (fun hh => hy hh.symm)

/-- Registering preserves key distinctness from any starting store. -/
theorem keysNodup_foldl (docs : List MSG01Rec) (store : List (String × MSG01Rec))
    (h : keysNodup store) : keysNodup (List.foldl registerMsg01 store docs) := by
  induction docs generalizing store with
  | nil => exact h
  | cons y ys ih =>
    rw [List.foldl_cons]
    exact ih _ (keysNodup_setAssoc h)

/-- A document whose key occurs uniquely in the batch is retrievable under
its own key after the whole batch is registered. -/
theorem lookup_registerAll_unique (docs : List MSG01Rec) (store : List (String × MSG01Rec))
    (d : MSG01Rec) (hmem : d ∈ docs)
    (huniq : ∀ e ∈ docs, msg01KeyOf e = msg01KeyOf d → e = d) :
    lookupAssoc (List.foldl registerMsg01 store docs) (msg01KeyOf d) = some d := by
  induction docs generalizing store with
  | nil => cases hmem
  | cons y ys ih =>
    by_cases hd : d ∈ ys
    · rw [List.foldl_cons]
      exact ih _ hd (fun e he heq => huniq e (List.mem_cons.mpr (Or.inr he)) heq)
    · have hdy : d = y := by
        rcases List.mem_cons.mp hmem with h1 | h1
        · exact h1
        · exact absurd h1 hd
      subst hdy
      have hno : ∀ e ∈ ys, msg01KeyOf e ≠ msg01KeyOf d := by
        intro e he heq
        exact hd ((huniq e (by simp [he]) heq) ▸ he)
      rw [List.foldl_cons, lookup_foldl_no_key ys _ _ hno]
      exact lookupAssoc_setAssoc_self store (msg01KeyOf d) d

/-- C8: the SellerAgreement store keeps at most one record per composite
`(senderCode, sellerNumber)` key; registration is total and last-write
wins (registering a record makes it the one retrieved under its key,
silently replacing any earlier record); and a decoded MSG01 whose derived
key is unique in the batch is retrieved by looking the full store up with
the key re-derived from its own header and seller number. -/
theorem c8_seller_store :
    (∀ (store : List (String × MSG01Rec)) (m : MSG01Rec),
      lookupAssoc (registerMsg01 store m) (msg01KeyOf m) = some m)
    ∧ (∀ docs : List MSG01Rec, keysNodup (registerAll docs))
    ∧ (∀ (docs : List MSG01Rec) (d : MSG01Rec),
        d ∈ docs → (∀ e ∈ docs, msg01KeyOf e = msg01KeyOf d → e = d) →
        lookupAssoc (registerAll docs) (msg01KeyOf d) = some d) :=
  ⟨fun store m => lookupAssoc_setAssoc_self store (msg01KeyOf m) m,
   fun docs => keysNodup_foldl docs [] (by simp [keysNodup]),
   fun docs d hmem huniq => lookup_registerAll_unique docs [] d hmem huniq⟩

/-- Witness for C8: registering the batch `[m01Ex]` and looking up the
key re-derived from the document itself returns the document. -/
theorem c8_seller_store_witness :
    lookupAssoc (registerAll [m01Ex]) (msg01KeyOf m01Ex) = some m01Ex :=
  c8_seller_store.2.2 [m01Ex] m01Ex (by simp) (fun e he _ => by simpa using he)

/-- Inserting with `jsOrderedInsert` is a permutation of consing. -/
theorem jsOrderedInsert_perm (le : α → α → Bool) (x : α) (l : List α) :
    (jsOrderedInsert le x l).Perm (x :: l) := by
  induction l with
  | nil => simp [jsOrderedInsert]
  | cons y ys ih =>
    unfold jsOrderedInsert
    by_cases h : le x y
    · rw [if_pos h]
    · rw [if_neg h]
      exact (ih.cons y).trans (List.Perm.swap x y ys)

/-- `jsStableSort` permutes its input. -/
theorem jsStableSort_perm (le : α → α → Bool) (l : List α) :
    (jsStableSort le l).Perm l := by
  induction l with
  | nil => rfl
  | cons x xs ih =>
    exact (jsOrderedInsert_perm le x (jsStableSort le xs)).trans (ih.cons x)

/-- Inserting into a `le`-sorted list whose elements satisfy `P` keeps it
sorted, provided `le` is total and transitive on `P`-elements. -/
theorem pairwise_jsOrderedInsert {le : α → α → Bool} {P : α → Prop}
    (total : ∀ a b, P a → P b → (le a b = true ∨ le b a = true))
    (htrans : ∀ a b c, P a → P b → P c → le a b = true → le b c = true → le a c = true)
    {x : α} {l : List α} (hx : P x) (hl : ∀ y ∈ l, P y)
    (h : l.Pairwise (fun a b => le a b = true)) :
    (jsOrderedInsert le x l).Pairwise (fun a b => le a b = true) := by
  induction l with
  | nil => simp [jsOrderedInsert]
  | cons y ys ih =>
    have hy : P y := hl y (by simp)
    have hys : ∀ z ∈ ys, P z := fun z hz => hl z (by simp [hz])
    obtain ⟨hyle, hysp⟩ := List.pairwise_cons.mp h
    unfold jsOrderedInsert
    by_cases hxy : le x y = true
    · rw [if_pos hxy]
      refine List.pairwise_cons.mpr ⟨?_, h⟩
      intro z hz
      rcases List.mem_cons.mp hz with rfl | hz'
      · exact hxy
      · exact htrans x y z hx hy (hys z hz') hxy (hyle z hz')
    · rw [if_neg hxy]
      have hyx : le y x = true := by
        rcases total x y hx hy with h1 | h1
        · exact absurd h1 hxy
        · exact h1
      refine List.pairwise_cons.mpr ⟨?_, ih hys hysp⟩
      intro z hz
      rcases List.mem_cons.mp ((jsOrderedInsert_perm le x ys).mem_iff.mp hz) with rfl | hz'
      · exact hyx
      · exact hyle z hz'

/-- `jsStableSort` sorts any list of `P`-elements when `le` is total and
transitive on `P`. -/
theorem pairwise_jsStableSort {le : α → α → Bool} {P : α → Prop}
    (total : ∀ a b, P a → P b → (le a b = true ∨ le b a = true))
    (htrans : ∀ a b c, P a → P b → P c → le a b = true → le b c = true → le a c = true)
    {l : List α} (hl : ∀ y ∈ l, P y) :
    (jsStableSort le l).Pairwise (fun a b => le a b = true) := by
  induction l with
  | nil => simp [jsStableSort]
  | cons x xs ih =>
    unfold jsStableSort
    refine pairwise_jsOrderedInsert total htrans (hl x (by simp)) ?_
      (ih fun y hy => hl y (by simp [hy]))
    intro y hy
    exact hl y (by simp [(jsStableSort_perm le xs).mem_iff.mp hy])

/-- C6 counterexample: with a parsable-dated row first and an
unparsable-dated row second, the received-date comparator returns `NaN`
(treated as a tie), so the stable sort leaves the pair in input order —
the unparsable row does **not** sort before the parsable one, against
the claim's oldest-sentinel clause.  Any ECMAScript-conforming (stable)
sort returns a two-element array whose comparator ties unchanged, so
this refutation does not depend on the model's choice of algorithm. -/
theorem c6_sort_counterexample :
    sortDisplayRows [mkTestRow "2020-01-01", mkTestRow ""] =
        [mkTestRow "2020-01-01", mkTestRow ""] ∧
      jsDateParse ((mkTestRow "").dateReceived) = none ∧
      (jsDateParse ((mkTestRow "2020-01-01").dateReceived)).isSome = true := by
  refine ⟨by decide, by decide, by decide⟩

/-- C6 (amended): the combine step sorts rows with a stable sort on the
received-date comparator; the output is a permutation of the input; when
every row's received date parses the output is ascending by parsed date
(ties broken by input order, by stability); a row with an unparsable
received date compares as a tie against everything, so it keeps its
input position relative to its neighbours instead of sorting as the
oldest value. -/
theorem c6_received_date_sort :
    (∀ rows : List DisplayRow, (sortDisplayRows rows).Perm rows)
    ∧ (∀ rows : List DisplayRow,
        (∀ r ∈ rows, (jsDateParse r.dateReceived).isSome = true) →
        (sortDisplayRows rows).Pairwise (fun a b => dateKey a ≤ dateKey b))
    ∧ (∀ a b : DisplayRow, jsDateParse b.dateReceived = none →
        sortDisplayRows [a, b] = [a, b]) := by
  refine ⟨fun rows => jsStableSort_perm rowLe rows, ?_, ?_⟩
  · intro rows hall
    have total : ∀ a b : DisplayRow,
        (jsDateParse a.dateReceived).isSome = true →
        (jsDateParse b.dateReceived).isSome = true →
        (rowLe a b = true ∨ rowLe b a = true) := by
      intro a b ha hb
      obtain ⟨xa, hxa⟩ := Option.isSome_iff_exists.mp ha
      obtain ⟨xb, hxb⟩ := Option.isSome_iff_exists.mp hb
      unfold rowLe
      rw [hxa, hxb]
      simp only [jsDateCompare, decide_eq_true_eq]
      omega
    have htrans : ∀ a b c : DisplayRow,
        (jsDateParse a.dateReceived).isSome = true →
        (jsDateParse b.dateReceived).isSome = true →
        (jsDateParse c.dateReceived).isSome = true →
        rowLe a b = true → rowLe b c = true → rowLe a c = true := by
      intro a b c ha hb hc h1 h2
      obtain ⟨xa, hxa⟩ := Option.isSome_iff_exists.mp ha
      obtain ⟨xb, hxb⟩ := Option.isSome_iff_exists.mp hb
      obtain ⟨xc, hxc⟩ := Option.isSome_iff_exists.mp hc
      unfold rowLe at h1 h2 ⊢
      rw [hxa, hxb] at h1
      rw [hxb, hxc] at h2
      rw [hxa, hxc]
      simp only [jsDateCompare, decide_eq_true_eq] at h1 h2 ⊢
      omega
    have hp := pairwise_jsStableSort total htrans hall
    refine List.Pairwise.imp_of_mem (fun {a b} hma hmb hab => ?_) hp
    have ha := hall a ((jsStableSort_perm rowLe rows).mem_iff.mp hma)
    have hb := hall b ((jsStableSort_perm rowLe rows).mem_iff.mp hmb)
    obtain ⟨xa, hxa⟩ := Option.isSome_iff_exists.mp ha
    obtain ⟨xb, hxb⟩ := Option.isSome_iff_exists.mp hb
    unfold rowLe at hab
    rw [hxa, hxb] at hab
    simp only [jsDateCompare, decide_eq_true_eq] at hab
    unfold dateKey
    rw [hxa, hxb]
    simpa using hab
  · intro a b hb
    have hcmp : jsDateCompare (jsDateParse a.dateReceived) none = 0 := by
      cases jsDateParse a.dateReceived <;> rfl
    simp [sortDisplayRows, jsStableSort, jsOrderedInsert, rowLe, hb, hcmp]

/-- Witness for C6: two parsable-dated rows come out ascending, and a
parsable/unparsable pair is returned unchanged. -/
theorem c6_received_date_sort_witness :
    (sortDisplayRows [mkTestRow "2021-03-04", mkTestRow "2020-01-01"]).Pairwise
        (fun a b => dateKey a ≤ dateKey b) ∧
      sortDisplayRows [mkTestRow "2020-01-01", mkTestRow ""] =
        [mkTestRow "2020-01-01", mkTestRow ""] :=
  ⟨c6_received_date_sort.2.1 [mkTestRow "2021-03-04", mkTestRow "2020-01-01"] (by decide),
   c6_received_date_sort.2.2 (mkTestRow "2020-01-01") (mkTestRow "") (by decide)⟩

/-- C7: a transactional message whose derived join key matches no stored
SellerAgreement record still yields a display row — `buildRow` is total
and `combineRows` produces exactly one row per message — and the
seller-derived `industryProduct` field of that row is the empty string. -/
theorem c7_unmatched_seller :
    (∀ (rc : Resolvers) (store : List (String × MSG01Rec)) (msg : TransMsg) (st : ConvState),
      lookupAssoc store (msg01Key msg.msgInfo.SenderCode msg.seller.SellerNr) = none →
      ((buildRow rc store msg st).1).industryProduct = some "")
    ∧ (∀ (rc : Resolvers) (store : List (String × MSG01Rec)) (msgs : List TransMsg)
        (st : ConvState), ((combineRows rc store msgs st).1).length = msgs.length) := by
  constructor
  · intro rc store msg st h
    unfold buildRow
    rw [h]
  · intro rc store msgs
    induction msgs with
    | nil => intro st; rfl
    | cons m rest ih =>
      intro st
      simp [combineRows, ih]

/-- Witness for C7: against an empty store the concrete message still
produces a row with an empty `industryProduct`. -/
theorem c7_unmatched_seller_witness :
    ((buildRow rcEx [] transMsgEx { cache := [], promptInputs := [] }).1).industryProduct =
      some "" :=
  c7_unmatched_seller.1 rcEx [] transMsgEx { cache := [], promptInputs := [] } rfl

/-- C9: when a currency has no cached rate and the user cancels the
prompt, the row's converted amount degrades to the annotated string
`"<amount> <CUR> (Rate needed)"` — a string, not a number — the cache is
left unchanged, and the combiner's loop structure processes the
remaining messages of the batch regardless of what any one row's
conversion produced. -/
theorem c9_rate_declined :
    (∀ (q : Rat) (c : String) (st : ConvState) (rest : List (Option String)),
      c ≠ "" → jsToUpper c ≠ "USD" → lookupAssoc st.cache (jsToUpper c) = none →
      promptForExchangeRate st.promptInputs = (none, rest) →
      convertToUSD (JSVal.num (JNum.fin q)) (some c) st =
        (JSVal.str (formatFixed2 q ++ " " ++ jsToUpper c ++ " (Rate needed)"),
         { cache := st.cache, promptInputs := rest }))
    ∧ (∀ (rc : Resolvers) (store : List (String × MSG01Rec)) (msg : TransMsg)
        (rest : List TransMsg) (st : ConvState),
        combineRows rc store (msg :: rest) st =
          ((buildRow rc store msg st).1 ::
            (combineRows rc store rest ((buildRow rc store msg st).2)).1,
           (combineRows rc store rest ((buildRow rc store msg st).2)).2)) := by
  constructor
  · intro q c st rest hc hu hl hpr
    simp [convertToUSD, parseFloatVal, hc, hu, hl, convertPrompt, hpr, formatFixed2J]
  · intro rc store msg rest st
    rfl

/-- Witness for C9: amount `5` in uncached `"EUR"` with the user
cancelling degrades to `"5.00 EUR (Rate needed)"` and caches nothing. -/
theorem c9_rate_declined_witness :
    convertToUSD (JSVal.num (JNum.fin 5)) (some "EUR") { cache := [], promptInputs := [none] } =
      (JSVal.str "5.00 EUR (Rate needed)", { cache := [], promptInputs := [] }) := by
  have h := c9_rate_declined.1 5 "EUR" { cache := [], promptInputs := [none] } []
    (by decide) (by decide) rfl rfl
  rw [h]
  have hfl : Int.floor (|(5 : Rat)| * 100 + 1 / 2) = 500 := by norm_num
  have hf : formatFixed2 5 = "5.00" := by
    unfold formatFixed2
    rw [hfl, if_neg (by norm_num : ¬(5 : Rat) < 0)]
    decide
  rw [hf, show jsToUpper "EUR" = "EUR" from by decide]
  decide
